import Mathlib

/-!
Verification of the ESP OTA firmware-update agent (`src/main.rs`) against its
natural-language specification.

The development shallowly embeds the update core: the semantic-version data
model and ordering used by the polling loop (the `semver` crate's `Version`
parsing and `Ord`, as documented by that crate), the manifest fetch
(`check_update`), the polling orchestrator (`ota`), and the image transfer
(`ota_update`).  Network and flash side effects are modelled by explicit
oracles (response status, read results, operation success flags) and by an
event trace recording the storage-sink operations the code invokes.
-/

/-- Ascii decimal digit test, as in `u8::is_ascii_digit` used by the
`semver` crate's comparators. -/
def isDigitChar (c : Char) : Bool :=
  decide ('0' ≤ c ∧ c ≤ '9')

/-- Character allowed in a semver pre-release / build identifier:
`[0-9A-Za-z-]`. -/
def isIdentChar (c : Char) : Bool :=
  isDigitChar c || decide ('a' ≤ c ∧ c ≤ 'z') || decide ('A' ≤ c ∧ c ≤ 'Z') || c = '-'

/-- A parsed pre-release identifier as the `semver` crate distinguishes them
during comparison: purely numeric identifiers (which the parser guarantees
have no leading zeros) versus alphanumeric ones. -/
inductive PreId where
  | num (n : Nat)
  | alpha (s : List Char)
deriving DecidableEq, Repr

/-- `semver::Version`: major.minor.patch triple, pre-release identifiers and
build-metadata identifiers (build identifiers kept raw: leading zeros are
allowed there and the crate's ordering inspects them). -/
structure Version where
  major : Nat
  minor : Nat
  patch : Nat
  pre : List PreId
  build : List (List Char)
deriving DecidableEq, Repr

/-- Lexicographic comparison of character lists by code point (what `str`
comparison does on the ASCII identifiers semver admits). -/
def cmpChars : List Char → List Char → Ordering
  | [], [] => .eq
  | [], _ :: _ => .lt
  | _ :: _, [] => .gt
  | a :: as, b :: bs =>
    match compare a b with
    | .eq => cmpChars as bs
    | o => o

/-- Comparison of two pre-release identifiers per semver precedence rules
(also what the `semver` crate implements): numeric < alphanumeric, numeric
compared numerically, alphanumeric compared lexically in ASCII order. -/
def cmpPreId : PreId → PreId → Ordering
  | .num a, .num b => compare a b
  | .num _, .alpha _ => .lt
  | .alpha _, .num _ => .gt
  | .alpha a, .alpha b => cmpChars a b

/-- Identifier-by-identifier comparison of pre-release identifier lists; when
one list is a strict prefix of the other the shorter compares lower. -/
def cmpPreList : List PreId → List PreId → Ordering
  | [], [] => .eq
  | [], _ :: _ => .lt
  | _ :: _, [] => .gt
  | a :: as, b :: bs =>
    match cmpPreId a b with
    | .eq => cmpPreList as bs
    | o => o

/-- `Ord` on `semver::Prerelease`: an empty pre-release (a release) is
greater than any non-empty one; otherwise identifier lists are compared. -/
def cmpPre (a b : List PreId) : Ordering :=
  match a, b with
  | [], [] => .eq
  | [], _ :: _ => .gt
  | _ :: _, [] => .lt
  | _ :: _, _ :: _ => cmpPreList a b

/-- Comparison of two build-metadata identifiers per the `semver` crate's
`Ord for BuildMetadata`: when both are purely numeric, leading zeros are
stripped and the values compared numerically, with the number of leading
zeros as a final tie break; numeric sorts below alphanumeric; alphanumeric
identifiers compare lexically. -/
def cmpBuildId (a b : List Char) : Ordering :=
  match a.all isDigitChar, b.all isDigitChar with
  | true, true =>
    let a0 := a.dropWhile (fun c => c = '0')
    let b0 := b.dropWhile (fun c => c = '0')
    ((compare a0.length b0.length).then (cmpChars a0 b0)).then
      (compare a.length b.length)
  | true, false => .lt
  | false, true => .gt
  | false, false => cmpChars a b

/-- Identifier-by-identifier comparison of build identifier lists, shorter
strict prefix comparing lower. -/
def cmpBuildList : List (List Char) → List (List Char) → Ordering
  | [], [] => .eq
  | [], _ :: _ => .lt
  | _ :: _, [] => .gt
  | a :: as, b :: bs =>
    match cmpBuildId a b with
    | .eq => cmpBuildList as bs
    | o => o

/-- `Ord` on `semver::BuildMetadata`: empty build metadata sorts below any
non-empty build metadata. -/
def cmpBuild (a b : List (List Char)) : Ordering :=
  match a, b with
  | [], [] => .eq
  | [], _ :: _ => .lt
  | _ :: _, [] => .gt
  | _ :: _, _ :: _ => cmpBuildList a b

/-- `Ord for semver::Version` as the crate documents it: major, minor,
patch, pre-release, and finally build metadata as a tie break (the crate is
explicit that this last step departs from semver.org precedence, which
ignores build metadata). -/
def cmpVersion (a b : Version) : Ordering :=
  ((((compare a.major b.major).then (compare a.minor b.minor)).then
      (compare a.patch b.patch)).then (cmpPre a.pre b.pre)).then
    (cmpBuild a.build b.build)

/-- The comparison the polling loop performs at `update.version > version`
(`semver::Version`'s strict greater-than). -/
def verGt (a b : Version) : Bool :=
  cmpVersion a b == Ordering.gt

/-- Modelled from the spec: standard semver.org precedence on versions —
identical to the crate's comparison except that build metadata is ignored
("Build metadata MUST be ignored when determining version precedence"). -/
def specCmpVersion (a b : Version) : Ordering :=
  (((compare a.major b.major).then (compare a.minor b.minor)).then
      (compare a.patch b.patch)).then (cmpPre a.pre b.pre)

/-- Modelled from the spec: `a` strictly newer than `b` under standard
semver.org precedence. -/
def specGt (a b : Version) : Bool :=
  specCmpVersion a b == Ordering.gt

/-- Splits a character list at the first occurrence of `sep`; `none` when
`sep` does not occur. -/
def splitFirst (sep : Char) : List Char → Option (List Char × List Char)
  | [] => none
  | c :: cs =>
    if c = sep then some ([], cs)
    else match splitFirst sep cs with
      | none => none
      | some (l, r) => some (c :: l, r)

/-- Splits a character list at every occurrence of `sep` (like
`str::split`): always at least one piece, empty pieces preserved. -/
def splitAll (sep : Char) : List Char → List (List Char)
  | [] => [[]]
  | c :: cs =>
    if c = sep then [] :: splitAll sep cs
    else match splitAll sep cs with
      | [] => [[c]]
      | p :: ps => (c :: p) :: ps

/-- Parses one numeric version component: non-empty, all digits, no leading
zero unless the component is exactly `0` (the `semver` grammar). -/
def parseNumeric (s : List Char) : Option Nat :=
  if s = [] then none
  else if s.all isDigitChar then
    if s.length > 1 && s.headD ' ' = '0' then none
    else some (s.foldl (fun n c => n * 10 + (c.toNat - 48)) 0)
  else none

/-- Parses one pre-release identifier: non-empty, ident characters only;
purely numeric identifiers must not have leading zeros and become `PreId.num`. -/
def parsePreId (s : List Char) : Option PreId :=
  if s = [] then none
  else if !s.all isIdentChar then none
  else if s.all isDigitChar then
    match parseNumeric s with
    | some n => some (.num n)
    | none => none
  else some (.alpha s)

/-- Parses one build identifier: non-empty, ident characters only (leading
zeros allowed). -/
def parseBuildId (s : List Char) : Option (List Char) :=
  if s = [] then none
  else if s.all isIdentChar then some s
  else none

/-- Maps a fallible element parser over pieces, failing if any piece fails. -/
def parsePieces {α : Type} (f : List Char → Option α) :
    List (List Char) → Option (List α)
  | [] => some []
  | p :: ps =>
    match f p, parsePieces f ps with
    | some a, some as => some (a :: as)
    | _, _ => none

/-- Parses the dotted `major.minor.patch` core. -/
def parseCore (s : List Char) : Option (Nat × Nat × Nat) :=
  match splitAll '.' s with
  | [ma, mi, pa] =>
    match parseNumeric ma, parseNumeric mi, parseNumeric pa with
    | some a, some b, some c => some (a, b, c)
    | _, _, _ => none
  | _ => none

/-- `semver::Version::parse`: `major.minor.patch[-pre][+build]`.  The build
part starts at the first `+`; the pre-release part at the first `-` after
the numeric core.  Returns `none` exactly when the crate returns a parse
error (numeric-range overflow of `u64` components aside, which no claim
here touches). -/
def Version.parse (s : String) : Option Version :=
  let (beforeBuild, buildPart) :=
    match splitFirst '+' s.data with
    | none => (s.data, none)
    | some (l, r) => (l, some r)
  let (corePart, prePart) :=
    match splitFirst '-' beforeBuild with
    | none => (beforeBuild, none)
    | some (l, r) => (l, some r)
  match parseCore corePart with
  | none => none
  | some (ma, mi, pa) =>
    let preIds : Option (List PreId) :=
      match prePart with
      | none => some []
      | some p => parsePieces parsePreId (splitAll '.' p)
    let buildIds : Option (List (List Char)) :=
      match buildPart with
      | none => some []
      | some b => parsePieces parseBuildId (splitAll '.' b)
    match preIds, buildIds with
    | some pre, some build => some ⟨ma, mi, pa, pre, build⟩
    | _, _ => none

/-- `UpdateJson`: the serde target of manifest parsing, two string fields. -/
structure UpdateJson where
  version : String
  link : String
deriving DecidableEq, Repr

/-- `Update`: the parsed manifest, a `semver::Version` plus the link. -/
structure Update where
  version : Version
  link : String
deriving DecidableEq, Repr

/-- Outcome of fallible code that can also panic: `ok`, a propagated error
(`bail!` / `?`), or a process abort (`unwrap` on `None`/`Err`). -/
inductive Res (ε α : Type) where
  | ok : α → Res ε α
  | err : ε → Res ε α
  | panic : Res ε α
deriving DecidableEq, Repr

/-- The error cases `check_update` can produce, one per `bail!`/`?` site
(the spec's `FetchError` taxonomy): a non-2xx status (carrying the code), a
zero-byte body, a serde parse failure. -/
inductive FetchError where
  | unexpectedStatus (code : Nat)
  | emptyBody
  | parseError
deriving DecidableEq, Repr

/-- `Update::new`: `Version::parse(&json.version).unwrap()` — a version
string the semver parser rejects aborts the process (panic), it is not
returned as an error. -/
def Update.new (json : UpdateJson) : Res FetchError Update :=
  match Version.parse json.version with
  | some v => .ok ⟨v, json.link⟩
  | none => .panic

/-- The stack buffer of `check_update`: 256 zero bytes, then the single
read deposits `readBytes` into its front, leaving the tail untouched. -/
def bufAfterRead (readBytes : List Nat) : List Nat :=
  readBytes ++ List.replicate (256 - readBytes.length) 0

/-- The slice `&buf[..size]` that `check_update` hands to
`serde_json::from_slice`: the first `size = readBytes.length` bytes of the
buffer after the read. -/
def sliceParsed (readBytes : List Nat) : List Nat :=
  (bufAfterRead readBytes).take readBytes.length

/-- `check_update`, given the response the network produced: the status is
matched against `200..=299` (any other status bails with the code before
the body is touched); a single `Read::read` into the 256-byte buffer is
modelled by its result `readBytes`; a zero-size read bails (`EmptyBody`);
otherwise `&buf[..size]` goes to serde (`parse`, an oracle for
`serde_json::from_slice`, `none` being a propagated parse error) and the
result to `Update::new`. -/
def check_update (parse : List Nat → Option UpdateJson)
    (status : Nat) (readBytes : List Nat) : Res FetchError Update :=
  if 200 ≤ status ∧ status ≤ 299 then
    if readBytes.length = 0 then .err .emptyBody
    else
      match parse (sliceParsed readBytes) with
      | none => .err .parseError
      | some json => Update.new json
  else .err (.unexpectedStatus status)

/-- How the polling loop of `ota` ends: a fetched version strictly greater
than the baseline (`found`), the supplied oracle of poll results exhausted
(`ranOut` — in the device the loop would simply keep polling), a fetch
panic, or a fetch error propagated by `?`. -/
inductive LoopOut where
  | found
  | ranOut
  | panicked
  | failed (e : FetchError)
deriving DecidableEq, Repr

/-- The polling loop of `ota` (lines 88–98): one iteration per supplied
poll result; records every comparison performed as a (baseline, fetched)
pair and how the loop ended.  The loop breaks exactly when
`update.version > version` with `version` the fixed baseline. -/
def otaLoop (baseline : Version) :
    List (Res FetchError Update) → List (Version × Version) × LoopOut
  | [] => ([], .ranOut)
  | p :: rest =>
    match p with
    | .panic => ([], .panicked)
    | .err e => ([], .failed e)
    | .ok u =>
      if verGt u.version baseline then ([(baseline, u.version)], .found)
      else
        ((baseline, u.version) :: (otaLoop baseline rest).1,
          (otaLoop baseline rest).2)

/-- How a run of `ota` ends: `transferStarted link` records the argument
`ota_update` is invoked with when the loop breaks. -/
inductive OtaResult where
  | transferStarted (link : String)
  | stillPolling
  | panicked
  | fetchFailed (e : FetchError)
deriving DecidableEq, Repr

/-- A run of `ota`: the comparisons the polling loop performed and the
outcome. -/
structure OtaRun where
  comparisons : List (Version × Version)
  result : OtaResult
deriving DecidableEq, Repr

/-- `ota` (lines 81–103), with the results of the successive
`check_update` calls as oracles.  `let version = update.version` fixes the
baseline from the first fetch; the `let update` inside the loop shadows the
outer binding only within the loop body, so the `ota_update(update.link)`
call after the loop reads the OUTER `update` — the transfer is started with
the link of the baseline manifest, not the one that broke the loop. -/
def ota (first : Res FetchError Update)
    (polls : List (Res FetchError Update)) : OtaRun :=
  match first with
  | .panic => ⟨[], .panicked⟩
  | .err e => ⟨[], .fetchFailed e⟩
  | .ok update =>
    match otaLoop update.version polls with
    | (cs, .found) => ⟨cs, .transferStarted update.link⟩
    | (cs, .ranOut) => ⟨cs, .stillPolling⟩
    | (cs, .panicked) => ⟨cs, .panicked⟩
    | (cs, .failed e) => ⟨cs, .fetchFailed e⟩

/-- An operation `ota_update` invokes on the flash / storage sink, in
invocation order: `esp_ota::OtaUpdate::begin`, `ota.write(bytes)` with the
exact byte slice passed, `finalize`, `set_as_boot_partition`, `restart`. -/
inductive SinkEvent where
  | begin
  | write (bytes : List Nat)
  | finalize
  | setBootPartition
  | restart
deriving DecidableEq, Repr

/-- The error cases of `ota_update`, one per `bail!`/`?` site: `begin`
failure, non-2xx status (carrying the code), a failed stream read, a failed
`ota.write`, a failed `finalize`, a failed `set_as_boot_partition`. -/
inductive TransferError where
  | beginError
  | unexpectedStatus (code : Nat)
  | ioError
  | writeError
  | finalizeError
  | setBootError
deriving DecidableEq, Repr

/-- How a run of `ota_update` ends: the device restarted into the new
image, an error propagated, or the read oracle ran out before an
end-of-stream (a model artifact: the device would still be blocked in the
loop). -/
inductive TransferResult where
  | restarted
  | error (e : TransferError)
  | outOfReads
deriving DecidableEq, Repr

/-- A marker for a failed stream read (`Read::read` returning `Err`). -/
inductive IoErr where
  | ioErr
deriving DecidableEq, Repr

/-- The oracles for one `ota_update` run: the response status, the
successive results of `Read::read` with the 4096-byte buffer (`.ok bytes`
with `bytes` the bytes deposited, `.error` a read failure), and success
flags for `begin`, each `ota.write` (by index), `finalize` and
`set_as_boot_partition`. -/
structure TransferEnv where
  status : Nat
  reads : List (Except IoErr (List Nat))
  beginOk : Bool
  writeOk : Nat → Bool
  finalizeOk : Bool
  setBootOk : Bool

/-- The read/write loop of `ota_update` (lines 153–160).  `buf` is the
4096-byte stack buffer: a read of `size` bytes overwrites its first `size`
bytes and leaves the rest from the previous iteration; the code then does
`ota.write(&buf)? ` — the WHOLE buffer, not `&buf[..size]`.  Returns the
write events emitted and `none` on a normal zero-size end-of-stream, or
`some r` when the loop aborts. -/
def transferLoop (writeOk : Nat → Bool) (buf : List Nat) (idx : Nat) :
    List (Except IoErr (List Nat)) →
    List SinkEvent × Option TransferResult
  | [] => ([], some .outOfReads)
  | r :: rest =>
    match r with
    | .error _ => ([], some (.error .ioError))
    | .ok bytes =>
      if bytes.length = 0 then ([], none)
      else
        if writeOk idx then
          (SinkEvent.write (bytes ++ buf.drop bytes.length) ::
              (transferLoop writeOk (bytes ++ buf.drop bytes.length) (idx + 1) rest).1,
            (transferLoop writeOk (bytes ++ buf.drop bytes.length) (idx + 1) rest).2)
        else ([SinkEvent.write (bytes ++ buf.drop bytes.length)],
          some (.error .writeError))

/-- `ota_update` (lines 140–170), given the response and flash oracles.
`OtaUpdate::begin()?` runs BEFORE the status match; a non-2xx status then
bails with the code.  On a 2xx status the chunk loop runs; on its normal
end `ota.finalize()?`, then `set_as_boot_partition()?`, then `restart()`
(which does not return).  Events record the sink operations invoked, in
order, including ones that then fail. -/
def ota_update (env : TransferEnv) : List SinkEvent × TransferResult :=
  if env.beginOk then
    if 200 ≤ env.status ∧ env.status ≤ 299 then
      match transferLoop env.writeOk (List.replicate 4096 0) 0 env.reads with
      | (evs, some r) => (SinkEvent.begin :: evs, r)
      | (evs, none) =>
        if env.finalizeOk then
          if env.setBootOk then
            (SinkEvent.begin :: evs ++
              [SinkEvent.finalize, SinkEvent.setBootPartition, SinkEvent.restart],
              .restarted)
          else
            (SinkEvent.begin :: evs ++
              [SinkEvent.finalize, SinkEvent.setBootPartition],
              .error .setBootError)
        else
          (SinkEvent.begin :: evs ++ [SinkEvent.finalize], .error .finalizeError)
    else ([SinkEvent.begin], .error (.unexpectedStatus env.status))
  else ([SinkEvent.begin], .error .beginError)

/-- The byte slices of the write events of a trace, in order. -/
def writeSlices : List SinkEvent → List (List Nat)
  | [] => []
  | SinkEvent.write b :: rest => b :: writeSlices rest
  | _ :: rest => writeSlices rest

/-- The baseline version `0.1.0` of the end-to-end scenario. -/
def v010 : Version := ⟨0, 1, 0, [], []⟩

/-- The newer version `0.2.0` of the end-to-end scenario. -/
def v020 : Version := ⟨0, 2, 0, [], []⟩

/-- The parsed form of `1.0.0+b`. -/
def vBuildB : Version := ⟨1, 0, 0, [], [['b']]⟩

/-- The parsed form of `1.0.0+a`. -/
def vBuildA : Version := ⟨1, 0, 0, [], [['a']]⟩

/-- The bytes of a syntactically well-formed manifest document whose
`version` field is not a valid semantic version. -/
def badManifestBytes : List Nat :=
  ("\x7b\"version\":\"not-semver\",\"link\":\"x\"\x7d" : String).data.map Char.toNat

/-- A concrete stand-in for `serde_json::from_slice`, defined on exactly the
document `badManifestBytes` (other byte strings are a serde error). -/
def demoParse (bytes : List Nat) : Option UpdateJson :=
  if bytes = badManifestBytes then some ⟨"not-semver", "x"⟩ else none

/-- First chunk of the simulated 10,000-byte stream: 4096 bytes of `1`. -/
def r1bytes : List Nat := List.replicate 4096 1

/-- Second chunk of the simulated 10,000-byte stream: 4096 bytes of `2`. -/
def r2bytes : List Nat := List.replicate 4096 2

/-- Third chunk of the simulated 10,000-byte stream: the last 1808 bytes,
of value `3`. -/
def r3bytes : List Nat := List.replicate 1808 3

/-- The transfer oracles of the simulated 10,000-byte stream: status 200,
three successful chunk reads then end-of-stream, all sink operations
succeeding. -/
def envTenK : TransferEnv :=
  ⟨200, [Except.ok r1bytes, Except.ok r2bytes, Except.ok r3bytes, Except.ok []],
    true, fun _ => true, true, true⟩

/-- A transfer whose response status is 301 (everything else healthy). -/
def env301 : TransferEnv :=
  ⟨301, [], true, fun _ => true, true, true⟩

/-- A transfer whose first chunk read fails (everything else healthy). -/
def envReadErr : TransferEnv :=
  ⟨200, [Except.error IoErr.ioErr], true, fun _ => true, true, true⟩

example : Version.parse "0.1.0" = some ⟨0, 1, 0, [], []⟩ := by decide
example : Version.parse "1.2.3-alpha.1+b07" =
    some ⟨1, 2, 3, [.alpha ['a','l','p','h','a'], .num 1], [['b','0','7']]⟩ := by
  decide
example : Version.parse "not-semver" = none := by decide
example : Version.parse "1.02.3" = none := by decide
example : verGt ⟨0,2,0,[],[]⟩ ⟨0,1,0,[],[]⟩ = true := by decide
example : verGt ⟨1,0,0,[],[]⟩ ⟨1,0,0,[.num 1],[]⟩ = true := by decide

theorem natCompareSelf (n : Nat) : compare n n = Ordering.eq := by
  simp [Nat.compare_eq_eq]

theorem charCompareSelf (c : Char) : compare c c = Ordering.eq := by
  simp [compare, compareOfLessAndEq]

theorem cmpChars_self (s : List Char) : cmpChars s s = Ordering.eq := by
  induction s with
  | nil => rfl
  | cons c cs ih => simp [cmpChars, charCompareSelf, ih]

theorem cmpPreId_self (p : PreId) : cmpPreId p p = Ordering.eq := by
  cases p with
  | num n => simp [cmpPreId, natCompareSelf]
  | alpha s => simp [cmpPreId, cmpChars_self]

theorem cmpPreList_self (l : List PreId) : cmpPreList l l = Ordering.eq := by
  induction l with
  | nil => rfl
  | cons p ps ih => simp [cmpPreList, cmpPreId_self, ih]

theorem cmpPre_self (l : List PreId) : cmpPre l l = Ordering.eq := by
  cases l with
  | nil => rfl
  | cons p ps => simp [cmpPre, cmpPreList_self]

theorem cmpBuildId_self (s : List Char) : cmpBuildId s s = Ordering.eq := by
  cases h : s.all isDigitChar with
  | true => simp [cmpBuildId, h, natCompareSelf, cmpChars_self, Ordering.then]
  | false => simp [cmpBuildId, h, cmpChars_self]

theorem cmpBuildList_self (l : List (List Char)) : cmpBuildList l l = Ordering.eq := by
  induction l with
  | nil => rfl
  | cons s ss ih => simp [cmpBuildList, cmpBuildId_self, ih]

theorem cmpBuild_self (l : List (List Char)) : cmpBuild l l = Ordering.eq := by
  cases l with
  | nil => rfl
  | cons s ss => simp [cmpBuild, cmpBuildList_self]

theorem cmpVersion_self (a : Version) : cmpVersion a a = Ordering.eq := by
  simp [cmpVersion, natCompareSelf, cmpPre_self, cmpBuild_self, Ordering.then]

theorem verGt_self (a : Version) : verGt a a = false := by
  simp [verGt, cmpVersion_self]
  rfl

theorem orderingThenEq (o : Ordering) : o.then Ordering.eq = o := by
  cases o <;> rfl

theorem verGt_eq_specGt_of_build_eq (a b : Version) (h : a.build = b.build) :
    verGt a b = specGt a b := by
  have hb : cmpBuild a.build b.build = Ordering.eq := by
    rw [h]; exact cmpBuild_self b.build
  simp [verGt, specGt, cmpVersion, specCmpVersion, hb, orderingThenEq]

theorem otaLoop_fst_baseline (baseline : Version)
    (polls : List (Res FetchError Update)) :
    ((otaLoop baseline polls).1.all fun p => decide (p.1 = baseline)) = true := by
  induction polls with
  | nil => rfl
  | cons p rest ih =>
    cases p with
    | panic => rfl
    | err e => rfl
    | ok u =>
      cases h : verGt u.version baseline with
      | true => simp [otaLoop, h]
      | false => simp [otaLoop, h, ih]

theorem otaLoop_const_ranOut (baseline : Version)
    (polls : List (Res FetchError Update))
    (h : ∀ p ∈ polls, ∃ u : Update, p = Res.ok u ∧ u.version = baseline) :
    (otaLoop baseline polls).2 = LoopOut.ranOut := by
  induction polls with
  | nil => rfl
  | cons p rest ih =>
    obtain ⟨u, rfl, hv⟩ := h p (by simp)
    have hgt : verGt u.version baseline = false := by
      rw [hv]; exact verGt_self baseline
    simp only [otaLoop, hgt, Bool.false_eq_true, if_false]
    exact ih fun q hq => h q (by simp [hq])

theorem transferLoop_events_are_writes (w : Nat → Bool)
    (reads : List (Except IoErr (List Nat))) :
    ∀ buf idx, ∀ e ∈ (transferLoop w buf idx reads).1,
      ∃ b, e = SinkEvent.write b := by
  induction reads with
  | nil => intro buf idx e he; simp [transferLoop] at he
  | cons r rest ih =>
    intro buf idx e he
    cases r with
    | error i => simp [transferLoop] at he
    | ok bytes =>
      by_cases h0 : bytes.length = 0
      · simp [transferLoop, h0] at he
      · by_cases hw : w idx = true
        · simp [transferLoop, h0, hw] at he
          rcases he with rfl | he
          · exact ⟨_, rfl⟩
          · exact ih _ _ e he
        · simp [transferLoop, h0, hw] at he
          exact ⟨_, he⟩

theorem transferLoop_step (w : Nat → Bool) (buf bytes : List Nat) (idx : Nat)
    (rest : List (Except IoErr (List Nat)))
    (h0 : bytes = [] → False) (hw : w idx = true) :
    transferLoop w buf idx (Except.ok bytes :: rest) =
      (SinkEvent.write (bytes ++ buf.drop bytes.length) ::
          (transferLoop w (bytes ++ buf.drop bytes.length) (idx + 1) rest).1,
        (transferLoop w (bytes ++ buf.drop bytes.length) (idx + 1) rest).2) := by
  simp [transferLoop, h0, hw]
  exact h0

theorem transferLoop_eof (w : Nat → Bool) (buf : List Nat) (idx : Nat)
    (rest : List (Except IoErr (List Nat))) :
    transferLoop w buf idx (Except.ok [] :: rest) = ([], none) := by
  simp [transferLoop]

/-- Claim C7: the polling baseline is the version from the very first
successful manifest fetch and is never reassigned for the lifetime of the
polling loop: every comparison `ota` performs in every loop iteration has
that same baseline version as its left component. -/
theorem c7_baseline_never_reassigned (first : Res FetchError Update)
    (polls : List (Res FetchError Update)) (u : Update)
    (h : first = Res.ok u) :
    ((ota first polls).comparisons.all fun p => decide (p.1 = u.version)) = true := by
  subst h
  have hbase := otaLoop_fst_baseline u.version polls
  rcases hres : otaLoop u.version polls with ⟨cs, out⟩
  rw [hres] at hbase
  cases out <;> simp only [ota, hres] <;> exact hbase

/-- Witness for C7 at a concrete run: baseline `0.1.0`, one equal poll and
one newer poll. -/
theorem c7_baseline_never_reassigned_witness :
    ((ota (Res.ok ⟨v010, "http://host/a.bin"⟩)
        [Res.ok ⟨v010, "http://host/a.bin"⟩,
          Res.ok ⟨v020, "http://host/b.bin"⟩]).comparisons.all
      fun p => decide (p.1 = v010)) = true :=
  c7_baseline_never_reassigned _ _ ⟨v010, "http://host/a.bin"⟩ rfl

/-- Claim C8: a manifest fetch whose response status lies outside 200–299
yields the unexpected-status error carrying that code, for every body and
every parser — the body is never read or parsed. -/
theorem c8_unexpected_status_no_parse (parse : List Nat → Option UpdateJson)
    (status : Nat) (readBytes : List Nat)
    (h : (200 ≤ status ∧ status ≤ 299) → False) :
    check_update parse status readBytes =
      Res.err (FetchError.unexpectedStatus status) := by
  unfold check_update
  rw [if_neg h]

/-- Witness for C8 at status 301. -/
theorem c8_unexpected_status_no_parse_witness :
    check_update (fun _ => none) 301 [1, 2, 3] =
      Res.err (FetchError.unexpectedStatus 301) :=
  c8_unexpected_status_no_parse _ 301 _ (by decide)

/-- Claim C9: a manifest fetch with a success status whose single body read
returns zero bytes fails with the empty-body error, for every parser — no
parse is attempted. -/
theorem c9_zero_byte_read_empty_body (parse : List Nat → Option UpdateJson)
    (status : Nat) (h : 200 ≤ status ∧ status ≤ 299) :
    check_update parse status [] = Res.err FetchError.emptyBody := by
  unfold check_update
  rw [if_pos h]
  rfl

/-- Witness for C9 at status 200. -/
theorem c9_zero_byte_read_empty_body_witness :
    check_update (fun _ => none) 200 [] = Res.err FetchError.emptyBody :=
  c9_zero_byte_read_empty_body _ 200 (by decide)

/-- Claim C10: manifest parsing consumes exactly the bytes the single body
read returned — the slice `&buf[..size]` equals the read bytes, the stale
buffer tail beyond `size` is never part of the parsed document, and
`check_update`'s result depends on the parser only through its value on
those bytes. -/
theorem c10_parse_consumes_exact_read_prefix
    (parse : List Nat → Option UpdateJson) (status : Nat)
    (readBytes : List Nat) (h : 200 ≤ status ∧ status ≤ 299)
    (h0 : 0 < readBytes.length) (h256 : readBytes.length ≤ 256) :
    sliceParsed readBytes = readBytes ∧
    check_update parse status readBytes =
      (match parse readBytes with
        | none => Res.err FetchError.parseError
        | some json => Update.new json) := by
  have hs : sliceParsed readBytes = readBytes := by
    unfold sliceParsed bufAfterRead
    exact List.take_left _ _
  refine ⟨hs, ?_⟩
  unfold check_update
  rw [if_pos h, if_neg (show readBytes.length = 0 → False by omega), hs]

/-- Witness for C10 on a two-byte read. -/
theorem c10_parse_consumes_exact_read_prefix_witness :
    sliceParsed [7, 7] = [7, 7] ∧
    check_update (fun _ => none) 200 [7, 7] = Res.err FetchError.parseError :=
  c10_parse_consumes_exact_read_prefix (fun _ => none) 200 [7, 7]
    (by decide) (by decide) (by decide)

/-- Claim C1 (code bug): on the end-to-end scenario — baseline manifest
version `0.1.0` with link `http://host/old.bin`, one poll returning version
`0.2.0` with link `http://host/fw.bin` — the loop breaks on the newer
version but the transfer is invoked with the BASELINE manifest's link: the
loop-local `update` shadows the outer binding only inside the loop body, so
`ota_update(update.link)` after the loop reads the outer `update`. -/
theorem c1_transfer_started_with_baseline_link :
    ota (Res.ok ⟨v010, "http://host/old.bin"⟩)
        [Res.ok ⟨v020, "http://host/fw.bin"⟩] =
      ⟨[(v010, v020)], OtaResult.transferStarted "http://host/old.bin"⟩ ∧
    (("http://host/old.bin" == "http://host/fw.bin") = false) := by
  constructor
  · decide
  · decide

/-- Claim C4 (code bug): a fetched manifest whose `version` field is not a
valid semantic version — here the well-formed document with
`version = "not-semver"` — makes `Update::new` hit
`Version::parse(..).unwrap()`, aborting the process instead of returning
the typed parse error. -/
theorem c4_invalid_semver_version_aborts :
    Version.parse "not-semver" = none ∧
    check_update demoParse 200 badManifestBytes = Res.panic := by
  constructor
  · decide
  · decide

/-- Claim C5, counterexample: `1.0.0+b` and `1.0.0+a` are valid semantic
versions; the code's comparison (`semver::Version`'s `Ord`, which
tie-breaks on build metadata) deems the first strictly newer, while under
standard semver.org precedence (build metadata ignored) it is NOT greater —
so `is_newer` is not the strict greater-than of the standard semver order
on all valid pairs. -/
theorem c5_counterexample_build_metadata :
    Version.parse "1.0.0+b" = some vBuildB ∧
    Version.parse "1.0.0+a" = some vBuildA ∧
    verGt vBuildB vBuildA = true ∧
    specGt vBuildB vBuildA = false := by
  refine ⟨by decide, by decide, by decide, by decide⟩

/-- Claim C5, amended: the polling comparison is the strict greater-than of
the `semver` crate's total order, which agrees with standard semver.org
precedence whenever the two versions carry equal (in particular absent)
build metadata; it is irreflexive (`is_newer(a, a) = false`); and polls
returning a version equal to the baseline never break the loop. -/
theorem c5_comparator_amended :
    (∀ a b : Version, a.build = b.build → verGt a b = specGt a b) ∧
    (∀ a : Version, verGt a a = false) ∧
    (∀ (baseline : Version) (polls : List (Res FetchError Update)),
      (∀ p ∈ polls, ∃ u : Update, p = Res.ok u ∧ u.version = baseline) →
      (otaLoop baseline polls).2 = LoopOut.ranOut) :=
  ⟨verGt_eq_specGt_of_build_eq, verGt_self, otaLoop_const_ranOut⟩

/-- Witness for C5 at concrete versions: `0.2.0` against `0.1.0` (no build
metadata), irreflexivity at `0.1.0`, and an equal-version poll looping. -/
theorem c5_comparator_amended_witness :
    verGt v020 v010 = specGt v020 v010 ∧
    verGt v010 v010 = false ∧
    (otaLoop v010 [Res.ok ⟨v010, "http://host/a.bin"⟩]).2 = LoopOut.ranOut :=
  ⟨c5_comparator_amended.1 v020 v010 rfl,
    c5_comparator_amended.2.1 v010,
    c5_comparator_amended.2.2 v010 [Res.ok ⟨v010, "http://host/a.bin"⟩]
      (fun p hp => by
        simp only [List.mem_singleton] at hp
        exact ⟨⟨v010, "http://host/a.bin"⟩, hp, rfl⟩)⟩

/-- Claim C6, counterexample: on a transfer whose response status is 301,
the storage session IS begun — `esp_ota::OtaUpdate::begin()` runs before
the status match — and only then does the unexpected-status error surface. -/
theorem c6_counterexample_session_begun_on_bad_status :
    SinkEvent.begin ∈ (ota_update env301).1 ∧
    (ota_update env301).2 =
      TransferResult.error (TransferError.unexpectedStatus 301) := by
  constructor
  · decide
  · decide

/-- Claim C6, amended: the transfer engine begins the storage session and
only then validates the response status; for every transfer whose status
lies outside 200–299 the result is the unexpected-status error carrying
that code, and nothing beyond `begin` is invoked on the sink (no write, no
finalize, no boot-target switch). -/
theorem c6_amended_unexpected_status_after_begin (env : TransferEnv)
    (hb : env.beginOk = true)
    (hs : (200 ≤ env.status ∧ env.status ≤ 299) → False) :
    ota_update env = ([SinkEvent.begin],
      TransferResult.error (TransferError.unexpectedStatus env.status)) := by
  unfold ota_update
  rw [if_pos hb, if_neg hs]

/-- Witness for C6 at status 301. -/
theorem c6_amended_unexpected_status_after_begin_witness :
    ota_update env301 = ([SinkEvent.begin],
      TransferResult.error (TransferError.unexpectedStatus 301)) :=
  c6_amended_unexpected_status_after_begin env301 rfl (by decide)

/-- Claim C3: the boot target is switched only after the transfer session
finalizes successfully: whenever a chunk read or an `ota.write` errors the
run ends with that error and neither `finalize` nor `set_as_boot_partition`
is invoked; whenever `finalize` fails the run ends with the finalize error
and `set_as_boot_partition` is not invoked; and `set_as_boot_partition` is
only ever invoked when `finalize` succeeded. -/
theorem c3_no_boot_switch_without_successful_finalize (env : TransferEnv) :
    (((ota_update env).2 = TransferResult.error TransferError.ioError ∨
        (ota_update env).2 = TransferResult.error TransferError.writeError) →
      SinkEvent.finalize ∉ (ota_update env).1 ∧
        SinkEvent.setBootPartition ∉ (ota_update env).1) ∧
    ((ota_update env).2 = TransferResult.error TransferError.finalizeError →
      SinkEvent.setBootPartition ∉ (ota_update env).1) ∧
    (SinkEvent.setBootPartition ∈ (ota_update env).1 → env.finalizeOk = true) := by
  by_cases hb : env.beginOk = true
  · by_cases hs : 200 ≤ env.status ∧ env.status ≤ 299
    · have hwr := transferLoop_events_are_writes env.writeOk env.reads
        (List.replicate 4096 0) 0
      rcases hres : transferLoop env.writeOk (List.replicate 4096 0) 0 env.reads
        with ⟨evs, res⟩
      rw [hres] at hwr
      have hnf : SinkEvent.finalize ∉ evs := by
        intro hmem
        obtain ⟨b, hbb⟩ := hwr _ hmem
        exact SinkEvent.noConfusion hbb
      have hnsb : SinkEvent.setBootPartition ∉ evs := by
        intro hmem
        obtain ⟨b, hbb⟩ := hwr _ hmem
        exact SinkEvent.noConfusion hbb
      cases res with
      | some r =>
        have htr : ota_update env = (SinkEvent.begin :: evs, r) := by
          unfold ota_update
          rw [if_pos hb, if_pos hs, hres]
        rw [htr]
        refine ⟨fun _ => ⟨?_, ?_⟩, fun _ => ?_, fun hm => ?_⟩
        · intro hm
          rcases List.mem_cons.mp hm with h | h
          · exact SinkEvent.noConfusion h
          · exact hnf h
        · intro hm
          rcases List.mem_cons.mp hm with h | h
          · exact SinkEvent.noConfusion h
          · exact hnsb h
        · intro hm
          rcases List.mem_cons.mp hm with h | h
          · exact SinkEvent.noConfusion h
          · exact hnsb h
        · rcases List.mem_cons.mp hm with h | h
          · exact SinkEvent.noConfusion h
          · exact (hnsb h).elim
      | none =>
        by_cases hf : env.finalizeOk = true
        · by_cases hsb2 : env.setBootOk = true
          · have htr : ota_update env =
                (SinkEvent.begin :: evs ++ [SinkEvent.finalize,
                    SinkEvent.setBootPartition, SinkEvent.restart],
                  TransferResult.restarted) := by
              unfold ota_update
              rw [if_pos hb, if_pos hs, hres]
              show (if env.finalizeOk = true then _ else _) = _
              rw [if_pos hf, if_pos hsb2]
            rw [htr]
            refine ⟨fun h => ?_, fun h => ?_, fun _ => hf⟩
            · rcases h with h | h <;> exact absurd h (by simp)
            · exact absurd h (by simp)
          · have htr : ota_update env =
                (SinkEvent.begin :: evs ++ [SinkEvent.finalize,
                    SinkEvent.setBootPartition],
                  TransferResult.error TransferError.setBootError) := by
              unfold ota_update
              rw [if_pos hb, if_pos hs, hres]
              show (if env.finalizeOk = true then _ else _) = _
              rw [if_pos hf, if_neg hsb2]
            rw [htr]
            refine ⟨fun h => ?_, fun h => ?_, fun _ => hf⟩
            · rcases h with h | h <;> exact absurd h (by simp)
            · exact absurd h (by simp)
        · have htr : ota_update env =
              (SinkEvent.begin :: evs ++ [SinkEvent.finalize],
                TransferResult.error TransferError.finalizeError) := by
            unfold ota_update
            rw [if_pos hb, if_pos hs, hres]
            show (if env.finalizeOk = true then _ else _) = _
            rw [if_neg hf]
          rw [htr]
          refine ⟨fun h => ?_, fun _ => ?_, fun hm => ?_⟩
          · rcases h with h | h <;> exact absurd h (by simp)
          · intro hm
            rcases List.mem_cons.mp hm with h | h
            · exact SinkEvent.noConfusion h
            · rcases List.mem_append.mp h with h2 | h2
              · exact hnsb h2
              · rcases List.mem_singleton.mp h2 with h3
                exact SinkEvent.noConfusion h3
          · rcases List.mem_cons.mp hm with h | h
            · exact SinkEvent.noConfusion h
            · rcases List.mem_append.mp h with h2 | h2
              · exact (hnsb h2).elim
              · exact SinkEvent.noConfusion (List.mem_singleton.mp h2)
    · have htr : ota_update env = ([SinkEvent.begin],
          TransferResult.error (TransferError.unexpectedStatus env.status)) := by
        unfold ota_update
        rw [if_pos hb, if_neg hs]
      rw [htr]
      refine ⟨fun h => ?_, fun h => ?_, fun hm => ?_⟩
      · rcases h with h | h <;> exact absurd h (by simp)
      · exact absurd h (by simp)
      · exact absurd (List.mem_singleton.mp hm) (by simp)
  · have htr : ota_update env = ([SinkEvent.begin],
        TransferResult.error TransferError.beginError) := by
      unfold ota_update
      rw [if_neg hb]
    rw [htr]
    refine ⟨fun h => ?_, fun h => ?_, fun hm => ?_⟩
    · rcases h with h | h <;> exact absurd h (by simp)
    · exact absurd h (by simp)
    · exact absurd (List.mem_singleton.mp hm) (by simp)

/-- Witness for C3: a transfer whose first chunk read fails ends with the
read error and never invokes `finalize` or `set_as_boot_partition`. -/
theorem c3_no_boot_switch_without_successful_finalize_witness :
    SinkEvent.finalize ∉ (ota_update envReadErr).1 ∧
    SinkEvent.setBootPartition ∉ (ota_update envReadErr).1 :=
  (c3_no_boot_switch_without_successful_finalize envReadErr).1 (Or.inl (by decide))

/-- Claim C2 (code bug): on the simulated 10,000-byte stream read in chunks
of 4096, 4096 and 1808 bytes, the loop performs three writes but each
passes the WHOLE 4096-byte buffer (`ota.write(&buf)`, not
`&buf[..size]`): the third write is the 1808 fresh bytes followed by
2288 stale bytes left over from the second chunk, so the write sizes are
4096, 4096, 4096 — not 4096, 4096, 1808. -/
theorem c2_transfer_writes_whole_buffer :
    writeSlices (ota_update envTenK).1 =
      [r1bytes, r2bytes, r3bytes ++ r2bytes.drop 1808] ∧
    (writeSlices (ota_update envTenK).1).map List.length = [4096, 4096, 4096] ∧
    (ota_update envTenK).2 = TransferResult.restarted := by
  have hlen1 : r1bytes.length = 4096 := List.length_replicate 4096 1
  have hlen2 : r2bytes.length = 4096 := List.length_replicate 4096 2
  have hlen3 : r3bytes.length = 1808 := List.length_replicate 1808 3
  have hne1 : r1bytes = [] → False := by
    intro h
    rw [h] at hlen1
    exact absurd hlen1 (by decide)
  have hne2 : r2bytes = [] → False := by
    intro h
    rw [h] at hlen2
    exact absurd hlen2 (by decide)
  have hne3 : r3bytes = [] → False := by
    intro h
    rw [h] at hlen3
    exact absurd hlen3 (by decide)
  have e1 : r1bytes ++ (List.replicate 4096 (0 : Nat)).drop r1bytes.length
      = r1bytes := by
    rw [hlen1, List.drop_eq_nil_of_le (le_of_eq (List.length_replicate 4096 0)),
      List.append_nil]
  have e2 : r2bytes ++ r1bytes.drop r2bytes.length = r2bytes := by
    rw [hlen2, List.drop_eq_nil_of_le (le_of_eq hlen1), List.append_nil]
  have hloop : transferLoop envTenK.writeOk (List.replicate 4096 0) 0
      envTenK.reads =
      ([SinkEvent.write r1bytes, SinkEvent.write r2bytes,
        SinkEvent.write (r3bytes ++ r2bytes.drop 1808)], none) := by
    show transferLoop envTenK.writeOk (List.replicate 4096 0) 0
        [Except.ok r1bytes, Except.ok r2bytes, Except.ok r3bytes,
          Except.ok []] = _
    rw [transferLoop_step _ _ _ _ _ hne1 rfl, e1,
      transferLoop_step _ _ _ _ _ hne2 rfl, e2,
      transferLoop_step _ _ _ _ _ hne3 rfl, hlen3, transferLoop_eof]
  have hmain : ota_update envTenK =
      (SinkEvent.begin :: [SinkEvent.write r1bytes, SinkEvent.write r2bytes,
          SinkEvent.write (r3bytes ++ r2bytes.drop 1808)] ++
        [SinkEvent.finalize, SinkEvent.setBootPartition, SinkEvent.restart],
        TransferResult.restarted) := by
    unfold ota_update
    rw [hloop]
    rfl
  refine ⟨?_, ?_, ?_⟩
  · rw [hmain]
    rfl
  · rw [hmain]
    show [r1bytes.length, r2bytes.length, (r3bytes ++ r2bytes.drop 1808).length]
      = [4096, 4096, 4096]
    simp only [List.length_append, List.length_drop, hlen1, hlen2, hlen3]
  · rw [hmain]
